import Mathlib

/-!
Shallow embedding of `src/libbfjs.c`, the operation-dispatch facade of an
arbitrary-precision binary floating-point engine.  The wrapper's own code
(the `calc`/`calc2` dispatch switches, the sign tricks, the type-limit
computations, the precision helper `bits_`, the allocator binding
`my_bf_realloc`) is translated directly from the source.  The underlying
libbf routines are not part of the repository's sources: the ones whose
behaviour the claims constrain are modelled from the specification, and
the remaining ones are kept as parameters of the dispatch (a record of
functions), so that every theorem about the dispatch holds for every
possible implementation of those routines.

Idealizations, stated once: C `double` parameters that carry integer
counts (precision, digit counts) are embedded as `ℕ`/`ℚ`; statuses are
`ℕ` bit-sets; null pointers become `none`, and a dispatch case that would
dereference a null operand returns `none` (undefined behaviour).  The
magnitude of a finite value is kept as an unnormalized fraction of
naturals (`RawRat`) so that all arithmetic reduces structurally; the
rational value it denotes is recovered by `ratVal`/`bfSval`.
-/

/-- Modelled from the spec: the rounding-mode selector of the flag bundle
(nearest-even, toward-zero, toward minus/plus infinity, nearest-away);
libbf's header with the numeric encoding is not under src. -/
inductive RndMode where
  | RNDN
  | RNDZ
  | RNDD
  | RNDU
  | RNDNA
deriving DecidableEq

/-- Modelled from the spec: the flag bundle is a bit-set combining a
rounding-mode selector, an exponent-range descriptor (bits of exponent)
and the subnormal-policy modifier; the C bit packing (libbf.h, not under
src) is abstracted into the three fields. -/
structure bf_flags_t where
  rnd : RndMode
  expBits : ℕ
  subnormal : Bool
deriving DecidableEq

/-- Modelled from the spec: classification of a Value; the exponent's
reserved sentinel values encode zero, the infinities and NaN, and
`finite` stands for a finite non-zero value. -/
inductive BFKind where
  | zero
  | finite
  | inf
  | nan
deriving DecidableEq

/-- A non-negative rational magnitude as an unnormalized fraction of
naturals (`num / den`, with `den` positive for every value the model
builds).  Kept unnormalized so that all arithmetic on it is structurally
computable. -/
structure RawRat where
  num : ℕ
  den : ℕ
deriving DecidableEq

/-- The rational value denoted by a `RawRat`. -/
def ratVal (q : RawRat) : ℚ := (q.num : ℚ) / (q.den : ℚ)

/-- Product of two raw fractions. -/
def rrMul (a b : RawRat) : RawRat := ⟨a.num * b.num, a.den * b.den⟩

/-- Comparison of raw fractions by cross-multiplication. -/
def rrLe (a b : RawRat) : Bool := decide (a.num * b.den ≤ b.num * a.den)

/-- Modelled from the spec: a Value is a sign, an exponent (with
sentinels for the special states) and a mantissa limb sequence.  The
numeric content `mantissa * 2 ^ exponent` of a finite value is abstracted
into one positive magnitude `mag` (meaningful only when
`kind = BFKind.finite`; by convention `⟨0, 1⟩` otherwise), and the
exponent sentinels into `kind`. -/
structure bf_t where
  sign : Bool
  kind : BFKind
  mag : RawRat
deriving DecidableEq

/-- The signed rational content of a zero or finite Value. -/
def bfSval (a : bf_t) : ℚ :=
  match a.kind with
  | BFKind.finite => (if a.sign then -1 else 1) * ratVal a.mag
  | _ => 0

/-- Signed numerator of a zero or finite Value (structural counterpart
of `bfSval`; zero counts as 0 whatever its stored magnitude). -/
def sNum (a : bf_t) : ℤ :=
  match a.kind with
  | BFKind.finite => if a.sign then -(a.mag.num : ℤ) else (a.mag.num : ℤ)
  | _ => 0

/-- Denominator of a zero or finite Value, matching `sNum`. -/
def sDen (a : bf_t) : ℕ :=
  match a.kind with
  | BFKind.finite => a.mag.den
  | _ => 1

/-- Modelled from the spec: status bit for an invalid operation.  The
concrete bit positions of the five OR-able status conditions follow
libbf's header (not under src); the spec fixes only that they are
distinct OR-able bits. -/
def BF_ST_INVALID_OP : ℕ := 1

/-- Modelled from the spec: status bit for division by zero. -/
def BF_ST_DIVIDE_ZERO : ℕ := 2

/-- Modelled from the spec: status bit for overflow. -/
def BF_ST_OVERFLOW : ℕ := 4

/-- Modelled from the spec: status bit for underflow. -/
def BF_ST_UNDERFLOW : ℕ := 8

/-- Modelled from the spec: status bit for an inexact result. -/
def BF_ST_INEXACT : ℕ := 16

/-- A status has a given bit set. -/
def hasStatus (st flag : ℕ) : Prop := st &&& flag ≠ 0

/-- Binary length of a natural number, fuel-based so that kernel
reduction is structural. -/
def bitLenAux : ℕ → ℕ → ℕ
  | 0, _ => 0
  | fuel + 1, n => if n = 0 then 0 else bitLenAux fuel (n / 2) + 1

/-- Binary length of a natural number. -/
def bitLen (n : ℕ) : ℕ := bitLenAux n n

/-- Two to a possibly negative integer power, as a raw fraction. -/
def rrPow2 (e : ℤ) : RawRat :=
  if 0 ≤ e then ⟨2 ^ e.toNat, 1⟩ else ⟨1, 2 ^ (-e).toNat⟩

/-- Floor of the base-2 logarithm of a positive raw fraction. -/
def rrFloorLog2 (q : RawRat) : ℤ :=
  let s : ℤ := (bitLen q.num : ℤ) - (bitLen q.den : ℤ)
  if rrLe (rrPow2 s) q then s else s - 1

/-- Modelled from the spec: correct rounding of a positive magnitude `q`
to `prec` significant bits under rounding mode `rnd`; `sign` is the sign
of the value carrying the magnitude, giving the direction for the
toward-infinity modes.  Returns the rounded magnitude and the inexact
flag.  (Exponent-range checking — overflow/underflow — is not modelled;
no claim depends on it.) -/
def roundQ (rnd : RndMode) (sign : Bool) (q : RawRat) (prec : ℕ) : RawRat × Bool :=
  if q.num = 0 then (⟨0, 1⟩, false)
  else
    let e := rrFloorLog2 q
    let t := rrMul q (rrPow2 ((prec : ℤ) - 1 - e))
    let fl := t.num / t.den
    let rem := t.num % t.den
    let up : Bool :=
      match rnd with
      | RndMode.RNDN =>
          if t.den < 2 * rem then true
          else if 2 * rem = t.den then decide (fl % 2 = 1) else false
      | RndMode.RNDZ => false
      | RndMode.RNDD => sign && decide (rem ≠ 0)
      | RndMode.RNDU => !sign && decide (rem ≠ 0)
      | RndMode.RNDNA => decide (t.den ≤ 2 * rem)
    let m := if up then fl + 1 else fl
    (rrMul ⟨m, 1⟩ (rrPow2 (e + 1 - (prec : ℤ))), decide (rem ≠ 0))

/-- The NaN Value. -/
def bfNan : bf_t := ⟨false, BFKind.nan, ⟨0, 1⟩⟩

/-- Modelled from the spec: the `finite` classification predicate,
derived from the exponent sentinel. -/
def bf_is_finite (a : bf_t) : Bool := a.kind = BFKind.zero || a.kind = BFKind.finite

/-- Modelled from the spec: the `NaN` classification predicate. -/
def bf_is_nan (a : bf_t) : Bool := a.kind = BFKind.nan

/-- Modelled from the spec: the `zero` classification predicate. -/
def bf_is_zero (a : bf_t) : Bool := a.kind = BFKind.zero

/-- Modelled from the spec: `assign` copies the full numeric value (sign,
exponent, mantissa) of the source into the destination; the only failure
path is allocation failure, which is outside this model. -/
def bf_set (r a : bf_t) : bf_t := a

/-- Modelled from the spec: set a Value to a (small) signed integer,
exactly. -/
def bf_set_si (r : bf_t) (n : ℤ) : bf_t :=
  if n = 0 then ⟨false, BFKind.zero, ⟨0, 1⟩⟩
  else ⟨decide (n < 0), BFKind.finite, ⟨n.natAbs, 1⟩⟩

/-- Modelled from the spec: set a Value to an unsigned integer, exactly. -/
def bf_set_ui (r : bf_t) (n : ℕ) : bf_t :=
  if n = 0 then ⟨false, BFKind.zero, ⟨0, 1⟩⟩ else ⟨false, BFKind.finite, ⟨n, 1⟩⟩

/-- Modelled from the spec: negation flips the sign bit and leaves the
magnitude unchanged, for every Value including signed zero and the
infinities. -/
def bf_neg (r : bf_t) : bf_t := { r with sign := !r.sign }

/-- Modelled from the spec: read the exponent-range descriptor (bits of
exponent) out of the flag bundle. -/
def bf_get_exp_bits (flags : bf_flags_t) : ℕ := flags.expBits

/-- Modelled from the spec: multiply a Value by `2 ^ e`, rounding the
result to `prec` bits under the bundle's rounding mode; special values
are unchanged.  (Exponent-range checking is not modelled; the type-limit
computations the claims exercise stay within range.) -/
def bf_mul_2exp (r : bf_t) (e : ℤ) (prec : ℕ) (flags : bf_flags_t) : ℕ × bf_t :=
  match r.kind with
  | BFKind.finite =>
      let p := roundQ flags.rnd r.sign (rrMul r.mag (rrPow2 e)) prec
      ((if p.2 then BF_ST_INEXACT else 0), { r with mag := p.1 })
  | _ => (0, r)

/-- Modelled from the spec: add a signed integer to a Value, rounding the
exact sum to `prec` bits under the bundle's rounding mode.  An exact zero
sum gets the sign that IEEE-style semantics give it (negative only under
the toward-minus-infinity mode). -/
def bf_add_si (a : bf_t) (si : ℤ) (prec : ℕ) (flags : bf_flags_t) : ℕ × bf_t :=
  match a.kind with
  | BFKind.nan => (0, bfNan)
  | BFKind.inf => (0, a)
  | _ =>
      let n : ℤ := sNum a + si * (sDen a : ℤ)
      if n = 0 then (0, ⟨decide (flags.rnd = RndMode.RNDD), BFKind.zero, ⟨0, 1⟩⟩)
      else
        let sg : Bool := decide (n < 0)
        let p := roundQ flags.rnd sg ⟨n.natAbs, sDen a⟩ prec
        ((if p.2 then BF_ST_INEXACT else 0), ⟨sg, BFKind.finite, p.1⟩)

/-- Modelled from the spec: division.  Division of a finite non-zero
value by zero yields a signed infinity (sign the XOR of the operand
signs) and sets the division-by-zero bit; zero divided by zero is an
invalid operation yielding NaN; NaN propagates; infinities follow
IEEE-style semantics; the finite/finite quotient is the exact quotient
correctly rounded to `prec` bits. -/
def bf_div (a b : bf_t) (prec : ℕ) (flags : bf_flags_t) : ℕ × bf_t :=
  if a.kind = BFKind.nan ∨ b.kind = BFKind.nan then (0, bfNan)
  else if a.kind = BFKind.inf then
    if b.kind = BFKind.inf then (BF_ST_INVALID_OP, bfNan)
    else (0, ⟨Bool.xor a.sign b.sign, BFKind.inf, ⟨0, 1⟩⟩)
  else if b.kind = BFKind.inf then (0, ⟨Bool.xor a.sign b.sign, BFKind.zero, ⟨0, 1⟩⟩)
  else if b.kind = BFKind.zero then
    if a.kind = BFKind.zero then (BF_ST_INVALID_OP, bfNan)
    else (BF_ST_DIVIDE_ZERO, ⟨Bool.xor a.sign b.sign, BFKind.inf, ⟨0, 1⟩⟩)
  else if a.kind = BFKind.zero then (0, ⟨Bool.xor a.sign b.sign, BFKind.zero, ⟨0, 1⟩⟩)
  else
    let sg := Bool.xor a.sign b.sign
    let p := roundQ flags.rnd sg ⟨a.mag.num * b.mag.den, a.mag.den * b.mag.num⟩ prec
    ((if p.2 then BF_ST_INEXACT else 0), ⟨sg, BFKind.finite, p.1⟩)

/-- Distinguished comparison outcome codes: the spec defines `compare`
as returning one of less / equal / greater / unordered; the integer
codes follow libbf's convention (header not under src). -/
def CMP_LESS : ℤ := -1

/-- Comparison outcome: equal. -/
def CMP_EQUAL : ℤ := 0

/-- Comparison outcome: greater. -/
def CMP_GREATER : ℤ := 1

/-- Comparison outcome: unordered (a NaN was involved). -/
def CMP_UNORDERED : ℤ := 2

/-- Strict order on non-NaN Values, with the infinities at the ends and
the signed zeros identified (both compare as the rational 0). -/
def extLt (a b : bf_t) : Bool :=
  match a.kind, b.kind with
  | BFKind.inf, BFKind.inf => a.sign && !b.sign
  | BFKind.inf, _ => a.sign
  | _, BFKind.inf => !b.sign
  | _, _ => decide (sNum a * (sDen b : ℤ) < sNum b * (sDen a : ℤ))

/-- Modelled from the spec: IEEE-754-style comparison; any comparison
against NaN reports the distinguished unordered outcome, and the signed
zeros compare equal. -/
def bf_cmp (a b : bf_t) : ℤ :=
  if a.kind = BFKind.nan ∨ b.kind = BFKind.nan then CMP_UNORDERED
  else if extLt a b then CMP_LESS
  else if extLt b a then CMP_GREATER
  else CMP_EQUAL

/-- A host double, abstracted: a finite signed magnitude, a signed
infinity, or NaN. -/
inductive F64 where
  | num (sign : Bool) (mag : RawRat)
  | inf (sign : Bool)
  | nan
deriving DecidableEq

/-- Modelled from the spec: `to_double` rounds the Value to the host
format (53 significant bits) per the supplied rounding mode and returns
NaN together with a status when the magnitude is unrepresentable; it
writes its result and returns the status.  (Gradual underflow at tiny
magnitudes is not modelled; no claim depends on it.) -/
def bf_get_float64 (a : bf_t) (rnd_mode : RndMode) : ℕ × F64 :=
  match a.kind with
  | BFKind.nan => (0, F64.nan)
  | BFKind.inf => (0, F64.inf a.sign)
  | BFKind.zero => (0, F64.num a.sign ⟨0, 1⟩)
  | BFKind.finite =>
      let p := roundQ rnd_mode a.sign a.mag 53
      if rrLe ⟨2 ^ 1024, 1⟩ p.1 then (BF_ST_OVERFLOW, F64.nan)
      else ((if p.2 then BF_ST_INEXACT else 0), F64.num a.sign p.1)

/-- Modelled from the spec: signatures of the libbf arithmetic,
logical, root and transcendental routines that the dispatch forwards to.
Their sources are not under src and no claim constrains their values, so
the dispatch is parameterized over them: every theorem about the
dispatch below holds for every implementation.  Each routine returns its
status and the Value(s) it writes; its operands are read-only. -/
structure LibBFOps where
  bf_add : bf_t → bf_t → ℕ → bf_flags_t → ℕ × bf_t
  bf_sub : bf_t → bf_t → ℕ → bf_flags_t → ℕ × bf_t
  bf_mul : bf_t → bf_t → ℕ → bf_flags_t → ℕ × bf_t
  bf_logic_or : bf_t → bf_t → ℕ × bf_t
  bf_logic_xor : bf_t → bf_t → ℕ × bf_t
  bf_logic_and : bf_t → bf_t → ℕ × bf_t
  bf_sqrt : bf_t → ℕ → bf_flags_t → ℕ × bf_t
  bf_sqrtrem : bf_t → ℕ × bf_t × bf_t
  bf_round : bf_t → ℕ → bf_flags_t → ℕ × bf_t
  bf_rint : bf_t → bf_flags_t → ℕ × bf_t
  bf_const_log2 : ℕ → bf_flags_t → ℕ × bf_t
  bf_const_pi : ℕ → bf_flags_t → ℕ × bf_t
  bf_exp : bf_t → ℕ → bf_flags_t → ℕ × bf_t
  bf_log : bf_t → ℕ → bf_flags_t → ℕ × bf_t
  bf_pow : bf_t → bf_t → ℕ → bf_flags_t → ℕ × bf_t
  bf_cos : bf_t → ℕ → bf_flags_t → ℕ × bf_t
  bf_sin : bf_t → ℕ → bf_flags_t → ℕ × bf_t
  bf_tan : bf_t → ℕ → bf_flags_t → ℕ × bf_t
  bf_atan : bf_t → ℕ → bf_flags_t → ℕ × bf_t
  bf_atan2 : bf_t → bf_t → ℕ → bf_flags_t → ℕ × bf_t
  bf_asin : bf_t → ℕ → bf_flags_t → ℕ × bf_t
  bf_acos : bf_t → ℕ → bf_flags_t → ℕ × bf_t
  bf_rem : bf_t → bf_t → ℕ → bf_flags_t → ℤ → ℕ × bf_t
  bf_divrem : bf_t → bf_t → ℕ → bf_flags_t → ℤ → ℕ × bf_t × bf_t

/-- The wrapper's `set_` (src/libbfjs.c:87): assignment. -/
def set_ (r a : bf_t) : bf_t := bf_set r a

/-- The wrapper's `cmp_` (src/libbfjs.c:98): comparison. -/
def cmp_ (a b : bf_t) : ℤ := bf_cmp a b

/-- The wrapper's `get_number_` (src/libbfjs.c:93-97): initializes the
result to NaN, calls `bf_get_float64` (which overwrites it), and returns
only the double — the status returned by `bf_get_float64` is discarded. -/
def get_number_ (a : bf_t) (rnd_mode : RndMode) : F64 :=
  (bf_get_float64 a rnd_mode).2

/-- The constant `BITS_PER_DIGIT` (src/libbfjs.c:103), number of bits
per base-10 digit, as the exact rational value of the source literal. -/
def BITS_PER_DIGIT : ℚ := 332192809488736234786 / 100000000000000000000

/-- The wrapper's `bits_` (src/libbfjs.c:104-106): ceiling conversion of
a decimal digit count to a bit count (host doubles idealized as exact
rationals). -/
def bits_ (n_digits : ℚ) : ℚ := ((⌈n_digits * BITS_PER_DIGIT⌉ : ℤ) : ℚ)

/-- The wrapper's allocator binding `my_bf_realloc` (src/libbfjs.c:51-58).
Buffers are abstracted to their sizes, a pointer is `none` when null, and
the second component records whether the buffer was freed; the realloc
branch models C `realloc` returning a buffer of the requested size. -/
def my_bf_realloc (opq : Unit) (ptr : Option ℕ) (size : ℕ) : Option ℕ × Bool :=
  if ptr.isSome ∧ size ≤ 0 then (none, true)
  else (some size, false)

/-- The wrapper's `calc` entry point (src/libbfjs.c:109-199; `calc` is a
Lean keyword, hence the trailing underscore).  Result: status, the new
`r`, and the (possibly rewritten) operand slots `a` and `b` — only the
square-root-with-remainder case writes through `a`.  A case that would
dereference a null operand returns `none` (undefined behaviour in C). -/
def calc_ (ops : LibBFOps) (method : Char) (r : bf_t) (a b : Option bf_t)
    (prec : ℕ) (flags : bf_flags_t) : Option (ℕ × bf_t × Option bf_t × Option bf_t) :=
  match method with
  | '+' => match a, b with
    | some x, some y => let p := ops.bf_add x y prec flags; some (p.1, p.2, a, b)
    | _, _ => none
  | '-' => match a, b with
    | some x, some y => let p := ops.bf_sub x y prec flags; some (p.1, p.2, a, b)
    | _, _ => none
  | '*' => match a, b with
    | some x, some y => let p := ops.bf_mul x y prec flags; some (p.1, p.2, a, b)
    | _, _ => none
  | '/' => match a, b with
    | some x, some y => let p := bf_div x y prec flags; some (p.1, p.2, a, b)
    | _, _ => none
  | '|' => match a, b with
    | some x, some y => let p := ops.bf_logic_or x y; some (p.1, p.2, a, b)
    | _, _ => none
  | '^' => match a, b with
    | some x, some y => let p := ops.bf_logic_xor x y; some (p.1, p.2, a, b)
    | _, _ => none
  | '&' => match a, b with
    | some x, some y => let p := ops.bf_logic_and x y; some (p.1, p.2, a, b)
    | _, _ => none
  | 's' => match a with
    | some x => let p := ops.bf_sqrt x prec flags; some (p.1, p.2, a, b)
    | none => none
  | 'm' => match a, b with
    | some _, some y => let p := ops.bf_sqrtrem y; some (p.1, p.2.1, some p.2.2, b)
    | _, _ => none
  | 'r' => let p := ops.bf_round r prec flags; some (p.1, p.2, a, b)
  | 'i' => let p := ops.bf_rint r flags; some (p.1, p.2, a, b)
  | 'n' => some (0, bf_neg r, a, b)
  | 'b' => some (0, { r with sign := false }, a, b)
  | 'g' => match a with
    | some x =>
      if bf_is_nan x || bf_is_zero x then some (0, bf_set r x, a, b)
      else some (0, bf_set_si r (1 - 2 * (if x.sign then (1 : ℤ) else 0)), a, b)
    | none => none
  | '2' => let p := ops.bf_const_log2 prec flags; some (p.1, p.2, a, b)
  | '3' => let p := ops.bf_const_pi prec flags; some (p.1, p.2, a, b)
  | 'E' => match a with
    | some x => let p := ops.bf_exp x prec flags; some (p.1, p.2, a, b)
    | none => none
  | 'L' => match a with
    | some x => let p := ops.bf_log x prec flags; some (p.1, p.2, a, b)
    | none => none
  | 'P' => match a, b with
    | some x, some y => let p := ops.bf_pow x y prec flags; some (p.1, p.2, a, b)
    | _, _ => none
  | 'C' => match a with
    | some x => let p := ops.bf_cos x prec flags; some (p.1, p.2, a, b)
    | none => none
  | 'S' => match a with
    | some x => let p := ops.bf_sin x prec flags; some (p.1, p.2, a, b)
    | none => none
  | 'T' => match a with
    | some x => let p := ops.bf_tan x prec flags; some (p.1, p.2, a, b)
    | none => none
  | '4' => match a with
    | some x => let p := ops.bf_atan x prec flags; some (p.1, p.2, a, b)
    | none => none
  | '5' => match a, b with
    | some x, some y => let p := ops.bf_atan2 x y prec flags; some (p.1, p.2, a, b)
    | _, _ => none
  | '6' => match a with
    | some x => let p := ops.bf_asin x prec flags; some (p.1, p.2, a, b)
    | none => none
  | '7' => match a with
    | some x => let p := ops.bf_acos x prec flags; some (p.1, p.2, a, b)
    | none => none
  | 'z' =>
      let e_range : ℤ := 2 ^ (bf_get_exp_bits flags - 1)
      let r1 := bf_set_ui r 1
      let e : ℤ := -e_range + 2
      let e : ℤ := if flags.subnormal then e - ((prec : ℤ) - 1) else e
      let p := bf_mul_2exp r1 e prec flags
      some (0, p.2, a, b)
  | 'Z' =>
      let e_range : ℤ := 2 ^ (bf_get_exp_bits flags - 1)
      let r1 := bf_set_ui r 1
      let p1 := bf_mul_2exp r1 (prec : ℤ) prec flags
      let p2 := bf_add_si p1.2 (-1) prec flags
      let p3 := bf_mul_2exp p2.2 (e_range - (prec : ℤ)) prec flags
      some (0, p3.2, a, b)
  | 'y' =>
      let r1 := bf_set_ui r 1
      let p := bf_mul_2exp r1 (1 - (prec : ℤ)) prec flags
      some (0, p.2, a, b)
  | _ => some (BF_ST_INVALID_OP, r, a, b)

/-- The wrapper's `calc2` entry point (src/libbfjs.c:203-213).  Result:
status, the new `r`, and the new second result `q`. -/
def calc2 (ops : LibBFOps) (method : Char) (r : bf_t) (a b : Option bf_t)
    (prec : ℕ) (flags : bf_flags_t) (rnd_mode : ℤ) (q : bf_t) :
    Option (ℕ × bf_t × bf_t) :=
  match method with
  | '%' => match a, b with
    | some x, some y => let p := ops.bf_rem x y prec flags rnd_mode; some (p.1, p.2, q)
    | _, _ => none
  | 'd' => match a, b with
    | some x, some y =>
      let p := ops.bf_divrem x y prec flags rnd_mode; some (p.1, p.2.2, p.2.1)
    | _, _ => none
  | _ => some (BF_ST_INVALID_OP, r, q)

/-- The selector characters handled by `calc` (the case labels of its
switch, src/libbfjs.c:109-199). -/
def calcSupported : List Char :=
  ['+', '-', '*', '/', '|', '^', '&', 's', 'm', 'r', 'i', 'n', 'b', 'g',
   '2', '3', 'E', 'L', 'P', 'C', 'S', 'T', '4', '5', '6', '7', 'z', 'Z', 'y']

/-- The selector characters handled by `calc2` (src/libbfjs.c:203-213). -/
def calc2Supported : List Char := ['%', 'd']

/-- The selectors of the rounding/negate/absolute-value group that read
and write only `r`. -/
def frameSels : List Char := ['r', 'i', 'n', 'b']

/-- A throwaway implementation of the parameterized libbf routines, used
only to instantiate theorems at concrete inputs. -/
def sampleOps : LibBFOps where
  bf_add := fun _ _ _ _ => (0, bfNan)
  bf_sub := fun _ _ _ _ => (0, bfNan)
  bf_mul := fun _ _ _ _ => (0, bfNan)
  bf_logic_or := fun _ _ => (0, bfNan)
  bf_logic_xor := fun _ _ => (0, bfNan)
  bf_logic_and := fun _ _ => (0, bfNan)
  bf_sqrt := fun _ _ _ => (0, bfNan)
  bf_sqrtrem := fun _ => (0, bfNan, bfNan)
  bf_round := fun r _ _ => (0, r)
  bf_rint := fun r _ => (0, r)
  bf_const_log2 := fun _ _ => (0, bfNan)
  bf_const_pi := fun _ _ => (0, bfNan)
  bf_exp := fun _ _ _ => (0, bfNan)
  bf_log := fun _ _ _ => (0, bfNan)
  bf_pow := fun _ _ _ _ => (0, bfNan)
  bf_cos := fun _ _ _ => (0, bfNan)
  bf_sin := fun _ _ _ => (0, bfNan)
  bf_tan := fun _ _ _ => (0, bfNan)
  bf_atan := fun _ _ _ => (0, bfNan)
  bf_atan2 := fun _ _ _ _ => (0, bfNan)
  bf_asin := fun _ _ _ => (0, bfNan)
  bf_acos := fun _ _ _ => (0, bfNan)
  bf_rem := fun _ _ _ _ _ => (0, bfNan)
  bf_divrem := fun _ _ _ _ _ => (0, bfNan, bfNan)

/-- A sample Value for instantiating theorems. -/
def sampleVal : bf_t := ⟨false, BFKind.finite, ⟨3, 1⟩⟩

/-- A sample flag bundle for instantiating theorems. -/
def sampleFlags : bf_flags_t := ⟨RndMode.RNDN, 11, false⟩

set_option maxRecDepth 4000

/-- Unfolding of the `'Z'` (maximum-finite) case of `calc_`. -/
theorem calc_Z_eq (ops : LibBFOps) (r : bf_t) (a b : Option bf_t) (prec : ℕ)
    (flags : bf_flags_t) :
    calc_ ops 'Z' r a b prec flags =
      some (0, (bf_mul_2exp (bf_add_si (bf_mul_2exp (bf_set_ui r 1) (prec : ℤ) prec flags).2
        (-1) prec flags).2 ((2 : ℤ) ^ (bf_get_exp_bits flags - 1) - (prec : ℤ)) prec flags).2,
        a, b) := rfl

/-- Unfolding of the `'y'` (machine-epsilon) case of `calc_`. -/
theorem calc_y_eq (ops : LibBFOps) (r : bf_t) (a b : Option bf_t) (prec : ℕ)
    (flags : bf_flags_t) :
    calc_ ops 'y' r a b prec flags =
      some (0, (bf_mul_2exp (bf_set_ui r 1) (1 - (prec : ℤ)) prec flags).2, a, b) := rfl

/-- Setting a Value to the unsigned integer 1 ignores its old content. -/
theorem bf_set_ui_one (r : bf_t) :
    bf_set_ui r 1 = ⟨false, BFKind.finite, ⟨1, 1⟩⟩ := rfl

/-- C1: every selector character outside the supported set makes the
dispatch entry points `calc` and `calc2` return the invalid-operation
status `BF_ST_INVALID_OP` and leave the result Value `r` (and the second
result `q` for `calc2`) completely unmutated — sign, exponent and
mantissa unchanged — with the operand slots untouched as well. -/
theorem C1_invalid_selector (ops : LibBFOps) (method : Char) (r q : bf_t)
    (a b : Option bf_t) (prec : ℕ) (flags : bf_flags_t) (rnd_mode : ℤ) :
    (method ∉ calcSupported →
      calc_ ops method r a b prec flags = some (BF_ST_INVALID_OP, r, a, b)) ∧
    (method ∉ calc2Supported →
      calc2 ops method r a b prec flags rnd_mode q = some (BF_ST_INVALID_OP, r, q)) := by
  constructor
  · intro h
    unfold calc_
    split <;> first | rfl | exact absurd (by decide) h
  · intro h
    unfold calc2
    split <;> first | rfl | exact absurd (by decide) h

/-- Witness for C1 at the concrete unsupported selector `'?'`. -/
theorem C1_invalid_selector_witness :
    calc_ sampleOps '?' sampleVal none none 53 sampleFlags =
      some (BF_ST_INVALID_OP, sampleVal, none, none) ∧
    calc2 sampleOps '?' sampleVal none none 53 sampleFlags 0 sampleVal =
      some (BF_ST_INVALID_OP, sampleVal, sampleVal) :=
  ⟨(C1_invalid_selector sampleOps '?' sampleVal sampleVal none none 53 sampleFlags 0).1
      (by decide),
   (C1_invalid_selector sampleOps '?' sampleVal sampleVal none none 53 sampleFlags 0).2
      (by decide)⟩

/-- C5: applying the negate selector `'n'` of `calc` twice returns the
original Value `x` — for every `x`, including signed zeros and the
infinities — and each application returns status 0 and flips only the
sign, leaving the magnitude (kind and mantissa content) unchanged.  The
operand slots are ignored and unmutated at each application. -/
theorem C5_double_negation (ops ops2 : LibBFOps) (x : bf_t) (a b a2 b2 : Option bf_t)
    (prec prec2 : ℕ) (flags flags2 : bf_flags_t) :
    ∃ y : bf_t, calc_ ops 'n' x a b prec flags = some (0, y, a, b) ∧
      y.sign = !x.sign ∧ y.kind = x.kind ∧ y.mag = x.mag ∧
      calc_ ops2 'n' y a2 b2 prec2 flags2 = some (0, x, a2, b2) := by
  refine ⟨bf_neg x, rfl, rfl, rfl, rfl, ?_⟩
  show some (0, bf_neg (bf_neg x), a2, b2) = some (0, x, a2, b2)
  cases x with
  | mk s k m => cases s <;> rfl

/-- C9: calling the Context's allocator binding with a non-null buffer
pointer and a requested size of zero frees the buffer and returns the
null pointer instead of a resized buffer. -/
theorem C9_shrink_to_zero_frees (p : ℕ) :
    my_bf_realloc () (some p) 0 = (none, true) := rfl

/-- C10: for the round-to-precision `'r'`, round-to-integer `'i'`,
negate `'n'` and absolute-value `'b'` selectors, `calc` reads and
mutates only `r`: for every implementation of the underlying routines
there are a status and a result depending only on `r`, `prec` and
`flags` such that the call succeeds for all operand slots (including
null ones) and returns them unchanged.  Negate and absolute-value
always return status 0, negate flips exactly the sign, and
absolute-value clears the sign leaving kind and mantissa content
unchanged. -/
theorem C10_frame (ops : LibBFOps) (r : bf_t) (a b : Option bf_t) (prec : ℕ)
    (flags : bf_flags_t) :
    (∀ sel, sel ∈ frameSels → ∃ st r2, ∀ a2 b2 : Option bf_t,
      calc_ ops sel r a2 b2 prec flags = some (st, r2, a2, b2)) ∧
    calc_ ops 'n' r a b prec flags = some (0, ⟨!r.sign, r.kind, r.mag⟩, a, b) ∧
    calc_ ops 'b' r a b prec flags = some (0, ⟨false, r.kind, r.mag⟩, a, b) := by
  refine ⟨?_, rfl, rfl⟩
  intro sel hmem
  fin_cases hmem
  · exact ⟨(ops.bf_round r prec flags).1, (ops.bf_round r prec flags).2, fun a2 b2 => rfl⟩
  · exact ⟨(ops.bf_rint r flags).1, (ops.bf_rint r flags).2, fun a2 b2 => rfl⟩
  · exact ⟨0, bf_neg r, fun a2 b2 => rfl⟩
  · exact ⟨0, { r with sign := false }, fun a2 b2 => rfl⟩

/-- Witness for C10 at concrete inputs, with the membership hypothesis
discharged at the selector `'i'`. -/
theorem C10_frame_witness :
    (∃ st r2, ∀ a2 b2 : Option bf_t,
      calc_ sampleOps 'i' sampleVal a2 b2 53 sampleFlags = some (st, r2, a2, b2)) ∧
    calc_ sampleOps 'n' sampleVal none none 53 sampleFlags =
      some (0, ⟨!sampleVal.sign, sampleVal.kind, sampleVal.mag⟩, none, none) ∧
    calc_ sampleOps 'b' sampleVal none none 53 sampleFlags =
      some (0, ⟨false, sampleVal.kind, sampleVal.mag⟩, none, none) :=
  ⟨(C10_frame sampleOps sampleVal none none 53 sampleFlags).1 'i' (by decide),
   (C10_frame sampleOps sampleVal none none 53 sampleFlags).2.1,
   (C10_frame sampleOps sampleVal none none 53 sampleFlags).2.2⟩

/-- C2: with a flag bundle carrying exponent-range bits = 8 and with
precision 24 (single-precision-style parameters), the type-limit
selectors of `calc` read no operand (the result is the same for every
operand slot content, which is returned unchanged) and produce the IEEE
754 single-precision boundary values: `'Z'` (maximum-finite) yields
`(2^24 - 1) * 2^104`, the largest finite single-precision value, and
`'y'` (machine-epsilon) yields `2^(1-24) = 1 / 2^23`; both return
status 0, under every rounding mode and subnormal policy. -/
theorem C2_type_limits (ops : LibBFOps) (r : bf_t) (a b : Option bf_t)
    (rm : RndMode) (sb : Bool) :
    (∃ v : bf_t, calc_ ops 'Z' r a b 24 ⟨rm, 8, sb⟩ = some (0, v, a, b) ∧
      v = ⟨false, BFKind.finite, ⟨(2 ^ 24 - 1) * 2 ^ 104, 1⟩⟩ ∧
      bfSval v = (2 ^ 24 - 1) * 2 ^ 104) ∧
    (∃ v : bf_t, calc_ ops 'y' r a b 24 ⟨rm, 8, sb⟩ = some (0, v, a, b) ∧
      v = ⟨false, BFKind.finite, ⟨2 ^ 23, 2 ^ 46⟩⟩ ∧
      bfSval v = 1 / 2 ^ 23) := by
  constructor
  · refine ⟨⟨false, BFKind.finite, ⟨(2 ^ 24 - 1) * 2 ^ 104, 1⟩⟩, ?_, rfl,
      by norm_num [bfSval, ratVal]⟩
    rw [calc_Z_eq, bf_set_ui_one]
    refine congrArg (fun v => some ((0 : ℕ), v, a, b)) ?_
    cases rm <;> cases sb <;> decide
  · refine ⟨⟨false, BFKind.finite, ⟨2 ^ 23, 2 ^ 46⟩⟩, ?_, rfl,
      by norm_num [bfSval, ratVal]⟩
    rw [calc_y_eq, bf_set_ui_one]
    refine congrArg (fun v => some ((0 : ℕ), v, a, b)) ?_
    cases rm <;> cases sb <;> decide

/-- C3: the sign-extract selector `'g'` of `calc` stores `+1` into the
result when the operand `a` is a positive (sign bit clear) non-zero
non-NaN value, `-1` when `a` is negative non-zero non-NaN, and a copy of
`a` itself when `a` is NaN or zero; it always returns status 0 and
leaves the operand slots unchanged. -/
theorem C3_sign_extract (ops : LibBFOps) (r : bf_t) (b : Option bf_t) (prec : ℕ)
    (flags : bf_flags_t) (a : bf_t) :
    (a.kind ≠ BFKind.nan → a.kind ≠ BFKind.zero → a.sign = false →
      calc_ ops 'g' r (some a) b prec flags =
        some (0, ⟨false, BFKind.finite, ⟨1, 1⟩⟩, some a, b)) ∧
    (a.kind ≠ BFKind.nan → a.kind ≠ BFKind.zero → a.sign = true →
      calc_ ops 'g' r (some a) b prec flags =
        some (0, ⟨true, BFKind.finite, ⟨1, 1⟩⟩, some a, b)) ∧
    ((a.kind = BFKind.nan ∨ a.kind = BFKind.zero) →
      calc_ ops 'g' r (some a) b prec flags = some (0, a, some a, b)) := by
  refine ⟨?_, ?_, ?_⟩
  · intro h1 h2 h3
    show (if bf_is_nan a || bf_is_zero a then _ else _) = _
    rw [if_neg]
    · simp [bf_set_si, h3]
    · simp [bf_is_nan, bf_is_zero, h1, h2]
  · intro h1 h2 h3
    show (if bf_is_nan a || bf_is_zero a then _ else _) = _
    rw [if_neg]
    · simp [bf_set_si, h3]
    · simp [bf_is_nan, bf_is_zero, h1, h2]
  · intro h
    show (if bf_is_nan a || bf_is_zero a then _ else _) = _
    rw [if_pos]
    · rfl
    · rcases h with h | h <;> simp [bf_is_nan, bf_is_zero, h]

/-- Witness for C3: a negative finite operand yields `-1`, and a zero
operand is copied through. -/
theorem C3_sign_extract_witness :
    calc_ sampleOps 'g' sampleVal (some ⟨true, BFKind.finite, ⟨7, 1⟩⟩) none 53 sampleFlags =
      some (0, ⟨true, BFKind.finite, ⟨1, 1⟩⟩, some ⟨true, BFKind.finite, ⟨7, 1⟩⟩, none) ∧
    calc_ sampleOps 'g' sampleVal (some ⟨true, BFKind.zero, ⟨0, 1⟩⟩) none 53 sampleFlags =
      some (0, ⟨true, BFKind.zero, ⟨0, 1⟩⟩, some ⟨true, BFKind.zero, ⟨0, 1⟩⟩, none) :=
  ⟨(C3_sign_extract sampleOps sampleVal none 53 sampleFlags
      ⟨true, BFKind.finite, ⟨7, 1⟩⟩).2.1 (by decide) (by decide) rfl,
   (C3_sign_extract sampleOps sampleVal none 53 sampleFlags
      ⟨true, BFKind.zero, ⟨0, 1⟩⟩).2.2 (Or.inr rfl)⟩

/-- C4: the divide selector `'/'` of `calc`, applied to a finite
non-zero `a` and a zero `b`, produces an infinity whose sign is the XOR
of the operand signs and returns a status with the division-by-zero bit
set; applied to zero `a` and zero `b` it produces NaN and returns a
status with the invalid-operation bit set.  The operand slots are
returned unchanged. -/
theorem C4_divide_by_zero (ops : LibBFOps) (r : bf_t) (prec : ℕ)
    (flags : bf_flags_t) (a b : bf_t) (hb : b.kind = BFKind.zero) :
    (a.kind = BFKind.finite →
      ∃ st r2, calc_ ops '/' r (some a) (some b) prec flags =
          some (st, r2, some a, some b) ∧
        hasStatus st BF_ST_DIVIDE_ZERO ∧ r2.kind = BFKind.inf ∧
        r2.sign = Bool.xor a.sign b.sign) ∧
    (a.kind = BFKind.zero →
      ∃ st r2, calc_ ops '/' r (some a) (some b) prec flags =
          some (st, r2, some a, some b) ∧
        hasStatus st BF_ST_INVALID_OP ∧ r2.kind = BFKind.nan) := by
  constructor
  · intro h
    refine ⟨BF_ST_DIVIDE_ZERO, ⟨Bool.xor a.sign b.sign, BFKind.inf, ⟨0, 1⟩⟩,
      ?_, by show BF_ST_DIVIDE_ZERO &&& BF_ST_DIVIDE_ZERO ≠ 0; decide, rfl, rfl⟩
    show some ((bf_div a b prec flags).1, (bf_div a b prec flags).2, some a, some b) = _
    simp [bf_div, hb, h]
  · intro h
    refine ⟨BF_ST_INVALID_OP, bfNan, ?_,
      by show BF_ST_INVALID_OP &&& BF_ST_INVALID_OP ≠ 0; decide, rfl⟩
    show some ((bf_div a b prec flags).1, (bf_div a b prec flags).2, some a, some b) = _
    simp [bf_div, hb, h, bfNan]

/-- Witness for C4: `3 / (-0)` gives negative infinity with the
division-by-zero bit, and `0 / 0` gives NaN with the invalid-operation
bit. -/
theorem C4_divide_by_zero_witness :
    (∃ st r2, calc_ sampleOps '/' sampleVal (some ⟨false, BFKind.finite, ⟨3, 1⟩⟩)
        (some ⟨true, BFKind.zero, ⟨0, 1⟩⟩) 53 sampleFlags =
          some (st, r2, some ⟨false, BFKind.finite, ⟨3, 1⟩⟩,
            some ⟨true, BFKind.zero, ⟨0, 1⟩⟩) ∧
      hasStatus st BF_ST_DIVIDE_ZERO ∧ r2.kind = BFKind.inf ∧
      r2.sign = Bool.xor false true) ∧
    (∃ st r2, calc_ sampleOps '/' sampleVal (some ⟨false, BFKind.zero, ⟨0, 1⟩⟩)
        (some ⟨true, BFKind.zero, ⟨0, 1⟩⟩) 53 sampleFlags =
          some (st, r2, some ⟨false, BFKind.zero, ⟨0, 1⟩⟩,
            some ⟨true, BFKind.zero, ⟨0, 1⟩⟩) ∧
      hasStatus st BF_ST_INVALID_OP ∧ r2.kind = BFKind.nan) :=
  ⟨(C4_divide_by_zero sampleOps sampleVal 53 sampleFlags
      ⟨false, BFKind.finite, ⟨3, 1⟩⟩ ⟨true, BFKind.zero, ⟨0, 1⟩⟩ rfl).1 rfl,
   (C4_divide_by_zero sampleOps sampleVal 53 sampleFlags
      ⟨false, BFKind.zero, ⟨0, 1⟩⟩ ⟨true, BFKind.zero, ⟨0, 1⟩⟩ rfl).2 rfl⟩

/-- C6: for every non-negative decimal digit count `n`, the precision
helper `bits_` returns the ceiling of `n` multiplied by the constant
3.32192809488736234786 (the source's value for log2 of 10): its result
is the integer `k` characterized by
`n * 3.32192809488736234786 ≤ k < n * 3.32192809488736234786 + 1`. -/
theorem C6_digits_to_bits (n : ℕ) :
    ∃ k : ℤ, bits_ (n : ℚ) = (k : ℚ) ∧
      (n : ℚ) * (332192809488736234786 / 100000000000000000000) ≤ (k : ℚ) ∧
      (k : ℚ) - 1 < (n : ℚ) * (332192809488736234786 / 100000000000000000000) := by
  refine ⟨⌈(n : ℚ) * BITS_PER_DIGIT⌉, rfl, ?_, ?_⟩
  · show (n : ℚ) * BITS_PER_DIGIT ≤ ((⌈(n : ℚ) * BITS_PER_DIGIT⌉ : ℤ) : ℚ)
    exact Int.le_ceil ((n : ℚ) * BITS_PER_DIGIT)
  · show ((⌈(n : ℚ) * BITS_PER_DIGIT⌉ : ℤ) : ℚ) - 1 < (n : ℚ) * BITS_PER_DIGIT
    have h := Int.ceil_lt_add_one ((n : ℚ) * BITS_PER_DIGIT)
    linarith

set_option maxRecDepth 12000 in
/-- C7 counterexample: the out-of-range condition is not observable
through `get_number_`'s result, and `get_number_` returns no status.  At
the concrete unrepresentable input `2 ^ 1030`, the underlying conversion
reports a non-zero status, while for a NaN operand it reports status 0;
`get_number_` returns the same NaN result in both cases, so the claim
that the caller can observe the out-of-range condition via the
operation's result fails. -/
theorem C7_counterexample :
    (bf_get_float64 ⟨false, BFKind.finite, ⟨2 ^ 1030, 1⟩⟩ RndMode.RNDN).1 ≠ 0 ∧
    (bf_get_float64 bfNan RndMode.RNDN).1 = 0 ∧
    get_number_ ⟨false, BFKind.finite, ⟨2 ^ 1030, 1⟩⟩ RndMode.RNDN =
      get_number_ bfNan RndMode.RNDN := by
  refine ⟨by decide, rfl, by decide⟩

/-- C7 (amended): for every finite Value whose magnitude rounds (per the
supplied mode) beyond the host double range, the underlying conversion
`bf_get_float64` produces NaN together with the overflow status, and
`get_number_` returns that NaN — but `get_number_` discards the status,
so the caller sees only the NaN, which does not distinguish the
out-of-range condition from a NaN operand. -/
theorem C7_overflow_returns_nan (a : bf_t) (rnd : RndMode)
    (hfin : a.kind = BFKind.finite)
    (hover : rrLe ⟨2 ^ 1024, 1⟩ (roundQ rnd a.sign a.mag 53).1 = true) :
    get_number_ a rnd = F64.nan ∧
    (bf_get_float64 a rnd).1 = BF_ST_OVERFLOW := by
  have h : bf_get_float64 a rnd = (BF_ST_OVERFLOW, F64.nan) := by
    unfold bf_get_float64
    rw [hfin]
    simp [hover]
  constructor
  · unfold get_number_
    rw [h]
  · rw [h]

set_option maxRecDepth 12000 in
/-- Witness for C7's amended theorem at the concrete input `2 ^ 1030`. -/
theorem C7_overflow_returns_nan_witness :
    get_number_ ⟨false, BFKind.finite, ⟨2 ^ 1030, 1⟩⟩ RndMode.RNDN = F64.nan ∧
    (bf_get_float64 ⟨false, BFKind.finite, ⟨2 ^ 1030, 1⟩⟩ RndMode.RNDN).1 =
      BF_ST_OVERFLOW :=
  C7_overflow_returns_nan ⟨false, BFKind.finite, ⟨2 ^ 1030, 1⟩⟩ RndMode.RNDN rfl
    (by decide)

/-- C8: `compare` (`cmp_`) of a NaN Value against any Value, in either
argument position, returns the distinguished unordered outcome (distinct
from less, equal and greater), and comparing positive zero against
negative zero returns the equal outcome. -/
theorem C8_compare_nan_and_zeros (v x : bf_t) (hv : v.kind = BFKind.nan) :
    cmp_ v x = CMP_UNORDERED ∧ cmp_ x v = CMP_UNORDERED ∧
    cmp_ ⟨false, BFKind.zero, ⟨0, 1⟩⟩ ⟨true, BFKind.zero, ⟨0, 1⟩⟩ = CMP_EQUAL ∧
    CMP_UNORDERED ≠ CMP_LESS ∧ CMP_UNORDERED ≠ CMP_EQUAL ∧
    CMP_UNORDERED ≠ CMP_GREATER := by
  refine ⟨?_, ?_, by decide, by decide, by decide, by decide⟩
  · simp [cmp_, bf_cmp, hv]
  · simp [cmp_, bf_cmp, hv]

/-- Witness for C8 at the NaN Value and a sample operand. -/
theorem C8_compare_nan_and_zeros_witness :
    cmp_ bfNan sampleVal = CMP_UNORDERED ∧ cmp_ sampleVal bfNan = CMP_UNORDERED ∧
    cmp_ ⟨false, BFKind.zero, ⟨0, 1⟩⟩ ⟨true, BFKind.zero, ⟨0, 1⟩⟩ = CMP_EQUAL ∧
    CMP_UNORDERED ≠ CMP_LESS ∧ CMP_UNORDERED ≠ CMP_EQUAL ∧
    CMP_UNORDERED ≠ CMP_GREATER :=
  C8_compare_nan_and_zeros bfNan sampleVal rfl
